import Mathlib

/-!
Verification of the `gtmpl_value` value model: the `Number` tagged numeric
type (`src/number.rs`), the `Value` tagged union (`src/value.rs`), and the
lifting/lowering conversion layer (`src/from.rs`).

Machine integers are embedded as `Nat` (u64 payloads) and `Int` (i64
payloads); every cast in the source is guarded, so no wraparound arithmetic
occurs. IEEE floating-point values are embedded exactly by the type `F64m`:
NaN, signed infinities, the negative zero, and finite values as dyadic
rationals (every finite IEEE double is a dyadic rational, and the
operations the source applies to floats - `fract`, `abs`, comparison,
`is_sign_negative`, the guarded casts - are exact on this representation).
-/

namespace Gtmpl

/-- A dyadic rational `m / 2 ^ e`, the exact value of a finite IEEE
double. Representations are not normalized; value comparison is by
cross-multiplication. -/
structure Dy where
  m : Int
  e : Nat
deriving DecidableEq

/-- Value order on dyadic rationals: `m1 / 2^e1 < m2 / 2^e2`. -/
def Dy.blt (a b : Dy) : Bool := a.m * 2 ^ b.e < b.m * 2 ^ a.e

/-- Three-way value comparison on dyadic rationals. -/
def Dy.cmp (a b : Dy) : Ordering :=
  if a.blt b then .lt else if b.blt a then .gt else .eq

/-- Truncation of a dyadic rational toward zero (the rounding of Rust
float-to-integer casts and of `f64::trunc`). -/
def Dy.trunc (a : Dy) : Int :=
  if 0 ≤ a.m then (a.m.toNat / 2 ^ a.e : Nat)
  else -(((-a.m).toNat / 2 ^ a.e : Nat) : Int)

/-- Absolute value of a dyadic rational. -/
def Dy.abs (a : Dy) : Dy := ⟨|a.m|, a.e⟩

/-- Exact model of an IEEE double (also used for f32 inputs, which are a
subset of the doubles): NaN, signed infinity, negative zero, or a finite
value given by its exact dyadic rational value (positive zero is any
`fin` with zero mantissa). -/
inductive F64m where
  | nan : F64m
  | inf (neg : Bool) : F64m
  | negZero : F64m
  | fin (d : Dy) : F64m
deriving DecidableEq

/-- Extended dyadic rationals used as comparison keys for non-NaN floats. -/
inductive XR where
  | bot : XR
  | num (d : Dy) : XR
  | top : XR
deriving DecidableEq

/-- Three-way comparison on the extended dyadic rationals. -/
def XR.cmp : XR → XR → Ordering
  | .bot, .bot => .eq
  | .bot, _ => .lt
  | .num _, .bot => .gt
  | .num p, .num q => p.cmp q
  | .num _, .top => .lt
  | .top, .top => .eq
  | .top, _ => .gt

/-- Comparison key of a float: `none` for NaN, otherwise its place in the
extended dyadic rationals (both zeros map to 0, as IEEE comparison ignores
the zero's sign). -/
def F64m.toXR : F64m → Option XR
  | .nan => none
  | .inf true => some .bot
  | .inf false => some .top
  | .negZero => some (.num ⟨0, 0⟩)
  | .fin d => some (.num d)

/-- Model of `f64::partial_cmp`: `none` iff an operand is NaN, otherwise
numeric comparison. -/
def F64m.cmpOpt (a b : F64m) : Option Ordering :=
  match a.toXR, b.toXR with
  | some x, some y => some (x.cmp y)
  | _, _ => none

/-- Model of IEEE `==` on doubles: true iff comparison yields equality
(false whenever an operand is NaN; `-0.0 == 0.0` holds). -/
def F64m.feq (a b : F64m) : Bool :=
  match a.cmpOpt b with
  | some .eq => true
  | _ => false

/-- Model of IEEE `<` on doubles (false whenever an operand is NaN). -/
def F64m.flt (a b : F64m) : Bool :=
  match a.cmpOpt b with
  | some .lt => true
  | _ => false

/-- Model of `f64::fract` (`self - self.trunc()`): NaN on NaN and
infinities; an exact subtraction on finite values, the result `+0.0`
whenever it is zero (IEEE subtraction of equal finite values). -/
def F64m.fract : F64m → F64m
  | .nan => .nan
  | .inf _ => .nan
  | .negZero => .fin ⟨0, 0⟩
  | .fin d => .fin ⟨d.m - d.trunc * 2 ^ d.e, d.e⟩

/-- Model of `f64::abs`. -/
def F64m.abs : F64m → F64m
  | .nan => .nan
  | .inf _ => .inf false
  | .negZero => .fin ⟨0, 0⟩
  | .fin d => .fin d.abs

/-- Model of `f64::is_sign_negative`: the sign bit, which distinguishes
`-0.0` from `0.0` (never applied to NaN by the source). -/
def F64m.isSignNegative : F64m → Bool
  | .nan => false
  | .inf neg => neg
  | .negZero => true
  | .fin d => decide (d.m < 0)

/-- Largest i64 value. -/
def i64Max : Int := 2 ^ 63 - 1

/-- Smallest i64 value. -/
def i64Min : Int := -(2 ^ 63)

/-- Largest u64 value. -/
def u64Max : Nat := 2 ^ 64 - 1

/-- Model of the Rust saturating cast `f64 as i64`: NaN to 0, truncation
toward zero clamped to the i64 range. -/
def F64m.toI64 : F64m → Int
  | .nan => 0
  | .inf neg => if neg then i64Min else i64Max
  | .negZero => 0
  | .fin d => max i64Min (min i64Max d.trunc)

/-- Model of the Rust saturating cast `f64 as u64`: NaN to 0, truncation
toward zero clamped to the u64 range. -/
def F64m.toU64 : F64m → Nat
  | .nan => 0
  | .inf neg => if neg then 0 else u64Max
  | .negZero => 0
  | .fin d => (max 0 (min (u64Max : Int) d.trunc)).toNat

/-- Model of the cast `i64 as f64` (exact; beyond 2 ^ 53 the real cast
rounds to the nearest double, which does not affect the comparison rule
the spec states). -/
def intToF (i : Int) : F64m := .fin ⟨i, 0⟩

/-- Model of the cast `u64 as f64` (exact, see `intToF`). -/
def natToF (n : Nat) : F64m := .fin ⟨(n : Int), 0⟩

/-- Value of `f64::EPSILON`, namely `2 ^ (-52)`. -/
def eps64 : F64m := .fin ⟨1, 52⟩

/-- Value of `f32::EPSILON`, namely `2 ^ (-23)`. -/
def eps32 : F64m := .fin ⟨1, 23⟩

/-- The private payload enum `Num` of `src/number.rs`: a u64, an i64 or an
f64. -/
inductive Num where
  | U (n : Nat) : Num
  | I (i : Int) : Num
  | F (f : F64m) : Num
deriving DecidableEq

/-- Kind tag of a payload (0 unsigned, 1 signed, 2 floating). -/
def Num.kind : Num → Nat
  | .U _ => 0
  | .I _ => 1
  | .F _ => 2

/-- Model of `PartialEq for Num` (`src/number.rs` lines 82-91): equal
payload constructors compare by the native equality, differing
constructors are never equal. -/
def Num.beq : Num → Num → Bool
  | .U s, .U o => s == o
  | .I s, .I o => s == o
  | .F s, .F o => s.feq o
  | _, _ => false

/-- Model of `PartialOrd for Num` (`src/number.rs` lines 54-67): same-kind
pairs compare natively; signed against unsigned is always `lt` (and
unsigned against signed always `gt`); a float against an integer compares
after casting the integer to f64. -/
def Num.cmpOpt : Num → Num → Option Ordering
  | .U s, .U o => some (compare s o)
  | .I s, .I o => some (compare s o)
  | .F s, .F o => s.cmpOpt o
  | .I _, .U _ => some .lt
  | .U _, .I _ => some .gt
  | .F s, .I o => s.cmpOpt (intToF o)
  | .I s, .F o => (intToF s).cmpOpt o
  | .F s, .U o => s.cmpOpt (natToF o)
  | .U s, .F o => (natToF s).cmpOpt o

/-- The public `Number` struct wrapping a `Num` payload. -/
structure Number where
  n : Num
deriving DecidableEq

/-- Equality of `Number` (the derived `PartialEq` delegates to `Num`). -/
def Number.beq (a b : Number) : Bool := a.n.beq b.n

/-- Ordering of `Number` (the derived `PartialOrd` delegates to `Num`). -/
def Number.cmpOpt (a b : Number) : Option Ordering := a.n.cmpOpt b.n

/-- Model of `Number::as_i64`: a signed payload directly; an unsigned
payload only if it fits below `i64::MAX`; never a float payload. -/
def Number.as_i64 (x : Number) : Option Int :=
  match x.n with
  | .U n => if n ≤ i64Max.toNat then some (n : Int) else none
  | .I i => some i
  | _ => none

/-- Model of `Number::as_u64`: an unsigned payload directly; a signed
payload only if non-negative; never a float payload. -/
def Number.as_u64 (x : Number) : Option Nat :=
  match x.n with
  | .U n => some n
  | .I i => if 0 ≤ i then some i.toNat else none
  | _ => none

/-- Model of `Number::as_f64`: a float payload directly; never an integer
payload. -/
def Number.as_f64 (x : Number) : Option F64m :=
  match x.n with
  | .F f => some f
  | _ => none

/-- Model of `From<i64> for Number` (the `from_i!` macro): negative stays
signed, non-negative is stored unsigned. -/
def Number.fromI64 (n : Int) : Number :=
  ⟨if n < 0 then .I n else .U n.toNat⟩

/-- Model of `From<u64> for Number` (the `from_u!` macro): always stored
unsigned. -/
def Number.fromU64 (n : Nat) : Number := ⟨.U n⟩

/-- Model of `From<f64> for Number` (the `from_f!` macro): when the
fractional part's absolute value is below `f64::EPSILON` the value
collapses, by integer cast, to the signed kind when the sign bit is set
and the unsigned kind otherwise; otherwise it is stored floating. -/
def Number.fromF64 (f : F64m) : Number :=
  ⟨if (f.fract.abs.flt eps64) then
      (if f.isSignNegative then .I f.toI64 else .U f.toU64)
    else .F f⟩

/-- Model of `From<f32> for Number` (the `from_f!` macro at f32): the same
collapse test against `f32::EPSILON`; the kept float is widened to f64
(exact, hence the identity here). -/
def Number.fromF32 (f : F64m) : Number :=
  ⟨if (f.fract.abs.flt eps32) then
      (if f.isSignNegative then .I f.toI64 else .U f.toU64)
    else .F f⟩

/-- The `Function` wrapper of `src/value.rs`: it holds one plain function
pointer. The pointer itself is embedded as an opaque identity token
`fid` (two distinct source functions have distinct addresses even when
they behave alike), since the source's `PartialEq` compares only the
pointer (`self.f as fn(_) -> _ == other.f`). -/
structure Function where
  fid : Nat
deriving DecidableEq

/-- Model of `PartialEq for Function` (`src/value.rs` lines 32-36):
function-pointer identity. -/
def Function.beq (a b : Function) : Bool := a.fid == b.fid

/-- The `Value` tagged union of `src/value.rs`. The two `HashMap` variants
are embedded as association lists (a `HashMap` is a finite key-value
collection with unique keys; iteration order never influences the
operations modelled here). -/
inductive Value where
  | noValue : Value
  | nil : Value
  | bool (b : Bool) : Value
  | string (s : String) : Value
  | object (o : List (String × Value)) : Value
  | map (m : List (String × Value)) : Value
  | array (a : List Value) : Value
  | function (f : Function) : Value
  | number (n : Number) : Value

/-- First value stored under a key, the model of `HashMap::get`. -/
def lookupEntry (k : String) : List (String × Value) → Option Value
  | [] => none
  | (k', v) :: rest => if k = k' then some v else lookupEntry k rest

mutual

/-- Model of the derived `PartialEq for Value`: identical variant and
recursively equal contents; `HashMap` contents compare by equal size plus
per-key lookup, ignoring order; numbers compare by `Num.beq`, so this
equality is not reflexive on NaN-holding values. -/
def valueEq : Value → Value → Bool
  | .noValue, .noValue => true
  | .nil, .nil => true
  | .bool a, .bool b => a == b
  | .string a, .string b => a == b
  | .object a, .object b => a.length == b.length && entriesSubEq a b
  | .map a, .map b => a.length == b.length && entriesSubEq a b
  | .array a, .array b => listValueEq a b
  | .function a, .function b => a.beq b
  | .number a, .number b => a.n.beq b.n
  | _, _ => false

/-- Pointwise equality of value lists (derived `PartialEq` for `Vec`). -/
def listValueEq : List Value → List Value → Bool
  | [], [] => true
  | a :: as, b :: bs => valueEq a b && listValueEq as bs
  | _, _ => false

/-- Each entry of the first map is found, equal, in the second (the
per-entry half of `HashMap`'s `PartialEq`). -/
def entriesSubEq : List (String × Value) → List (String × Value) → Bool
  | [], _ => true
  | (k, v) :: rest, b =>
      (match lookupEntry k b with
       | some w => valueEq v w
       | none => false)
      && entriesSubEq rest b

end

/-- Model of `From<i64> for Value` (and the other signed widths, which
widen first): a `Number` value. -/
def liftInt (n : Int) : Value := .number (Number.fromI64 n)

/-- Model of `From<u64> for Value` (and the other unsigned widths): a
`Number` value. -/
def liftNat (n : Nat) : Value := .number (Number.fromU64 n)

/-- Model of `From<f64> for Value`. -/
def liftF64 (f : F64m) : Value := .number (Number.fromF64 f)

/-- Model of `From<bool> for Value`. -/
def liftBool (b : Bool) : Value := .bool b

/-- Model of `From<String> for Value` (also `&str` and `Cow<str>`, which
copy into an owned string). -/
def liftString (s : String) : Value := .string s

/-- Model of `From<Func> for Value`: wrap the function pointer. -/
def liftFunc (f : Function) : Value := .function f

/-- Model of `From<Vec<T>> for Value` (`src/from.rs` lines 137-139),
parameterized by the element lifting `lift` (the `T: Into<Value>` bound):
an `Array` of the lifted elements, order preserved. -/
def liftList {T : Type} (lift : T → Value) (xs : List T) : Value :=
  .array (xs.map lift)

/-- Model of `From<HashMap<String, T>> for Value`: a `Map` of the
per-entry lifted values. -/
def liftMap {T : Type} (lift : T → Value) (es : List (String × T)) : Value :=
  .map (es.map (fun p => (p.1, lift p.2)))

/-- Model of `From<Option<T>> for Value` (`src/from.rs` lines 200-206):
a present value lifts to the lifted inner value, an absent one to
`NoValue`. -/
def liftOption {T : Type} (lift : T → Value) : Option T → Value
  | some x => lift x
  | none => .noValue

/-- Model of `FromValue<i64>::from_value`: `as_i64` of a `Number` value,
nothing otherwise. -/
def i64FromValue : Value → Option Int
  | .number n => n.as_i64
  | _ => none

/-- Model of `FromValue<u64>::from_value`: `as_u64` of a `Number` value,
nothing otherwise. -/
def u64FromValue : Value → Option Nat
  | .number n => n.as_u64
  | _ => none

/-- Model of `FromValue<f64>::from_value`: `as_f64` of a `Number` value,
nothing otherwise. -/
def f64FromValue : Value → Option F64m
  | .number n => n.as_f64
  | _ => none

/-- Model of `FromValue<String>::from_value`: the string of a `String`
value, nothing otherwise. -/
def stringFromValue : Value → Option String
  | .string s => some s
  | _ => none

/-- Model of `FromValue<Vec<T>>::from_value` (`src/from.rs` lines
313-321), parameterized by the element lowering `f` (the
`T: FromValue<T>` bound): on an `Array`, keep the successfully lowered
elements (`flat_map`) and succeed only when none was dropped (the length
check); on any other variant, fail. -/
def vecFromValue {T : Type} (f : Value → Option T) : Value → Option (List T)
  | .array a =>
      let v := a.filterMap f
      if v.length = a.length then some v else none
  | _ => none

/-- Model of `FromValue<HashMap<String, T>>::from_value` (`src/from.rs`
lines 346-362): on either map variant, keep the entries whose value
lowers (`flat_map`) and succeed only when none was dropped (the size
check); on any other variant, fail. -/
def hashMapFromValue {T : Type} (f : Value → Option T) : Value → Option (List (String × T))
  | .object o =>
      let m := o.filterMap (fun p => (f p.2).map (fun t => (p.1, t)))
      if m.length = o.length then some m else none
  | .map o =>
      let m := o.filterMap (fun p => (f p.2).map (fun t => (p.1, t)))
      if m.length = o.length then some m else none
  | _ => none

/-- An option-valued `mapM` over a list succeeds with result `r` exactly
when no element is dropped by the corresponding `filterMap` - the bridge
between the source's `flat_map`-then-length-check idiom and all-or-nothing
extraction. -/
theorem mapM_option_char {α β : Type} (f : α → Option β) :
    ∀ (l : List α) (r : List β),
      l.mapM f = some r ↔ (l.filterMap f = r ∧ (l.filterMap f).length = l.length)
  | [], r => by
      rw [show ([] : List α).mapM f = some [] from rfl]
      simp [eq_comm]
  | x :: xs, r => by
      cases hx : f x with
      | none =>
          have hle := List.length_filterMap_le f xs
          simp only [List.mapM_cons, hx, List.filterMap_cons_none, List.length_cons,
            Option.bind_eq_bind, Option.none_bind]
          constructor
          · intro h; exact absurd h (by simp)
          · rintro ⟨-, h2⟩; omega
      | some b =>
          simp only [List.mapM_cons, hx, List.filterMap_cons_some, List.length_cons,
            Option.bind_eq_bind, Option.some_bind, Option.bind_eq_some, Option.pure_def,
            Option.some.injEq]
          constructor
          · rintro ⟨bs, hbs, rfl⟩
            rcases (mapM_option_char f xs bs).mp hbs with ⟨h1, h2⟩
            subst h1
            exact ⟨rfl, by omega⟩
          · rintro ⟨h1, h2⟩
            exact ⟨xs.filterMap f, (mapM_option_char f xs _).mpr ⟨rfl, by omega⟩, by simp [h1]⟩

/-- C1: Lowering a `Value` to an ordered sequence succeeds exactly when the
value is the `Array` variant and every element lowers individually; the
result is then the per-element lowering in source order, of the source's
length, and any single failure yields `None` with no partial result.
Lifting `[1, 2, 3]` and lowering to signed integers yields `Some [1, 2, 3]`;
lifting `["a", "b"]` and lowering to signed integers yields `None`. -/
theorem vec_lowering_all_or_nothing :
    (∀ {T : Type} (f : Value → Option T) (v : Value) (l : List T),
      vecFromValue f v = some l ↔
        ∃ a, v = Value.array a ∧ a.mapM f = some l ∧ l.length = a.length)
    ∧ vecFromValue i64FromValue (liftList liftInt [1, 2, 3]) = some [1, 2, 3]
    ∧ vecFromValue i64FromValue (liftList liftString ["a", "b"]) = none := by
  refine ⟨?_, by decide, by decide⟩
  intro T f v l
  cases v <;> simp only [vecFromValue, reduceCtorEq, false_and, exists_const, false_iff,
    Value.array.injEq, exists_eq_left']
  case array a =>
    constructor
    · intro h
      split at h
      · rename_i hlen
        cases h
        exact ⟨(mapM_option_char f a _).mpr ⟨rfl, hlen⟩, hlen.symm ▸ rfl⟩
      · exact absurd h (by simp)
    · rintro ⟨h1, h2⟩
      rcases (mapM_option_char f a l).mp h1 with ⟨hfm, hlen⟩
      simp [hlen, hfm, h2]

/-- C6: Lowering a `Value` to a string-keyed mapping succeeds on both map
variants (the canonical `Map` and the legacy `Object`) and on no other
variant, exactly when every entry's value lowers individually; the result
then has exactly the source's entries (equal size), and any single failure
yields `None`. -/
theorem map_lowering_all_or_nothing :
    (∀ {T : Type} (f : Value → Option T) (v : Value) (m : List (String × T)),
      hashMapFromValue f v = some m ↔
        ∃ o, (v = Value.object o ∨ v = Value.map o)
          ∧ o.mapM (fun p => (f p.2).map (fun t => (p.1, t))) = some m
          ∧ m.length = o.length)
    ∧ hashMapFromValue u64FromValue (liftMap liftNat [("a", 1), ("b", 2)])
        = some [("a", 1), ("b", 2)]
    ∧ hashMapFromValue u64FromValue (.object [("a", liftNat 1)]) = some [("a", 1)]
    ∧ hashMapFromValue u64FromValue (.map [("a", liftNat 1), ("b", liftString "x")]) = none
    ∧ hashMapFromValue u64FromValue (.array [liftNat 1]) = none := by
  refine ⟨?_, by decide, by decide, by decide, by decide⟩
  intro T f v m
  have key : ∀ (o : List (String × Value)),
      (if (o.filterMap (fun p => (f p.2).map (fun t => (p.1, t)))).length = o.length
        then some (o.filterMap (fun p => (f p.2).map (fun t => (p.1, t)))) else none) = some m ↔
        (o.mapM (fun p => (f p.2).map (fun t => (p.1, t))) = some m ∧ m.length = o.length) := by
    intro o
    constructor
    · intro h
      split at h
      · rename_i hlen
        cases h
        exact ⟨(mapM_option_char _ o _).mpr ⟨rfl, hlen⟩, hlen.symm ▸ rfl⟩
      · exact absurd h (by simp)
    · rintro ⟨h1, h2⟩
      rcases (mapM_option_char _ o m).mp h1 with ⟨hfm, hlen⟩
      simp [hlen, hfm, h2]
  cases v <;>
    simp only [hashMapFromValue, reduceCtorEq, false_or, or_false, false_and, exists_const,
      false_iff, Value.object.injEq, Value.map.injEq, exists_eq_left', exists_eq_left]
  case object o => exact key o
  case map o => exact key o

/-- C2: The three `Number` accessors are kind-strict - `as_f64` answers
exactly on the floating kind, `as_i64` exactly on the signed kind or an
unsigned value at most the signed maximum, `as_u64` exactly on the
unsigned kind or a non-negative signed value. Consequently lifting a
native integer `n ≥ 0` and lowering yields `Some n` unsigned, `Some n`
signed iff `n` is at most the signed maximum, and `None` floating; a
native integer `i < 0` lowers to `Some i` signed and to `None` unsigned
and floating. -/
theorem accessor_kind_strictness :
    (∀ x : Number, (x.as_f64).isSome ↔ ∃ f, x.n = .F f)
    ∧ (∀ x : Number, (x.as_i64).isSome ↔
        ((∃ i, x.n = .I i) ∨ ∃ n, x.n = .U n ∧ n ≤ i64Max.toNat))
    ∧ (∀ x : Number, (x.as_u64).isSome ↔
        ((∃ n, x.n = .U n) ∨ ∃ i, x.n = .I i ∧ 0 ≤ i))
    ∧ i64Max.toNat = 2 ^ 63 - 1
    ∧ (∀ n : Nat, u64FromValue (liftNat n) = some n
        ∧ i64FromValue (liftNat n) = (if n ≤ i64Max.toNat then some (n : Int) else none)
        ∧ f64FromValue (liftNat n) = none)
    ∧ (∀ i : Int, i < 0 →
        (i64FromValue (liftInt i) = some i
          ∧ u64FromValue (liftInt i) = none
          ∧ f64FromValue (liftInt i) = none)) := by
  refine ⟨?_, ?_, ?_, by decide, ?_, ?_⟩
  · rintro ⟨n⟩; cases n <;> simp [Number.as_f64]
  · rintro ⟨n⟩
    cases n with
    | U m => by_cases h : m ≤ i64Max.toNat <;> simp [Number.as_i64, h]
    | I i => simp [Number.as_i64]
    | F f => simp [Number.as_i64]
  · rintro ⟨n⟩
    cases n with
    | U m => simp [Number.as_u64]
    | I i => by_cases h : 0 ≤ i <;> simp [Number.as_u64, h]
    | F f => simp [Number.as_u64]
  · intro n
    refine ⟨rfl, rfl, rfl⟩
  · intro i h
    refine ⟨?_, ?_, ?_⟩
    · simp [i64FromValue, liftInt, Number.fromI64, if_pos h, Number.as_i64]
    · simp [u64FromValue, liftInt, Number.fromI64, if_pos h, Number.as_u64,
        Int.not_le.mpr h]
    · simp [f64FromValue, liftInt, Number.fromI64, if_pos h, Number.as_f64]

/-- Witness for C2 at the concrete negative input `-7`. -/
theorem accessor_kind_strictness_witness :
    i64FromValue (liftInt (-7)) = some (-7)
    ∧ u64FromValue (liftInt (-7)) = none
    ∧ f64FromValue (liftInt (-7)) = none :=
  accessor_kind_strictness.2.2.2.2.2 (-7) (by decide)

/-- C3: Cross-kind `Number` ordering follows the fixed tie-break rules: a
signed-kind value is strictly below every unsigned-kind value regardless
of magnitude (signed `-1` below unsigned `1` in particular), a
floating-kind value against an integer kind compares after casting the
integer to floating-point, and same-kind pairs compare natively. -/
theorem number_cross_kind_ordering :
    (∀ (i : Int) (n : Nat),
      Number.cmpOpt ⟨.I i⟩ ⟨.U n⟩ = some .lt ∧ Number.cmpOpt ⟨.U n⟩ ⟨.I i⟩ = some .gt)
    ∧ (∀ (s : F64m) (i : Int),
      Number.cmpOpt ⟨.F s⟩ ⟨.I i⟩ = s.cmpOpt (intToF i)
        ∧ Number.cmpOpt ⟨.I i⟩ ⟨.F s⟩ = (intToF i).cmpOpt s)
    ∧ (∀ (s : F64m) (n : Nat),
      Number.cmpOpt ⟨.F s⟩ ⟨.U n⟩ = s.cmpOpt (natToF n)
        ∧ Number.cmpOpt ⟨.U n⟩ ⟨.F s⟩ = (natToF n).cmpOpt s)
    ∧ (∀ a b : Nat, Number.cmpOpt ⟨.U a⟩ ⟨.U b⟩ = some (compare a b))
    ∧ (∀ a b : Int, Number.cmpOpt ⟨.I a⟩ ⟨.I b⟩ = some (compare a b))
    ∧ (∀ a b : F64m, Number.cmpOpt ⟨.F a⟩ ⟨.F b⟩ = a.cmpOpt b)
    ∧ Number.cmpOpt ⟨.I (-1)⟩ ⟨.U 1⟩ = some .lt :=
  ⟨fun _ _ => ⟨rfl, rfl⟩, fun _ _ => ⟨rfl, rfl⟩, fun _ _ => ⟨rfl, rfl⟩,
    fun _ _ => rfl, fun _ _ => rfl, fun _ _ => rfl, by decide⟩

/-- C4: Constructing a `Number` from a float collapses it, by integer
cast, to the unsigned kind (non-negative sign) or signed kind (negative
sign) exactly when the absolute fractional part is below the source
type's machine epsilon - `2 ^ (-52)` for f64 inputs and `2 ^ (-23)` for
f32 inputs - and otherwise stores it floating; the value `2 ^ (-24)`
collapses under the f32 rule but stays floating under the f64 rule. -/
theorem float_construction_epsilon :
    (∀ f : F64m, f.fract.abs.flt eps64 = true →
      Number.fromF64 f = ⟨if f.isSignNegative then .I f.toI64 else .U f.toU64⟩)
    ∧ (∀ f : F64m, f.fract.abs.flt eps64 = false → Number.fromF64 f = ⟨.F f⟩)
    ∧ (∀ f : F64m, f.fract.abs.flt eps32 = true →
      Number.fromF32 f = ⟨if f.isSignNegative then .I f.toI64 else .U f.toU64⟩)
    ∧ (∀ f : F64m, f.fract.abs.flt eps32 = false → Number.fromF32 f = ⟨.F f⟩)
    ∧ eps64 = .fin ⟨1, 52⟩
    ∧ eps32 = .fin ⟨1, 23⟩
    ∧ Number.fromF32 (.fin ⟨1, 24⟩) = ⟨.U 0⟩
    ∧ Number.fromF64 (.fin ⟨1, 24⟩) = ⟨.F (.fin ⟨1, 24⟩)⟩ := by
  refine ⟨?_, ?_, ?_, ?_, rfl, rfl, by decide, by decide⟩ <;>
    intro f h <;> simp [Number.fromF64, Number.fromF32, h]

/-- Witness for C4 at concrete inputs on both sides of the f64 test. -/
theorem float_construction_epsilon_witness :
    Number.fromF64 (.fin ⟨47, 1⟩) = ⟨.F (.fin ⟨47, 1⟩)⟩
    ∧ Number.fromF64 (.fin ⟨-47, 1⟩) = ⟨.F (.fin ⟨-47, 1⟩)⟩
    ∧ Number.fromF64 (.fin ⟨-23, 0⟩)
        = ⟨if (F64m.fin ⟨-23, 0⟩).isSignNegative
            then .I (F64m.fin ⟨-23, 0⟩).toI64 else .U (F64m.fin ⟨-23, 0⟩).toU64⟩ :=
  ⟨float_construction_epsilon.2.1 _ (by decide),
    float_construction_epsilon.2.1 _ (by decide),
    float_construction_epsilon.1 _ (by decide)⟩

/-- C5: Two `Number`s are equal exactly when they store the same kind and
the payloads are equal under that kind's native equality; differing kinds
are never equal, so unsigned `23` is unequal to signed `23` and to every
floating-kind value, while the integral float `23.0` compares equal to
lifted `23` only because construction itself collapses it to the same
unsigned kind. -/
theorem number_eq_kind_strict :
    (∀ a b : Number, Number.beq a b = true → a.n.kind = b.n.kind)
    ∧ (∀ n m : Nat, Number.beq ⟨.U n⟩ ⟨.U m⟩ = decide (n = m))
    ∧ (∀ i j : Int, Number.beq ⟨.I i⟩ ⟨.I j⟩ = decide (i = j))
    ∧ (∀ s o : F64m, Number.beq ⟨.F s⟩ ⟨.F o⟩ = s.feq o)
    ∧ (∀ (n : Nat) (i : Int),
      Number.beq ⟨.U n⟩ ⟨.I i⟩ = false ∧ Number.beq ⟨.I i⟩ ⟨.U n⟩ = false)
    ∧ (∀ (n : Nat) (s : F64m),
      Number.beq ⟨.U n⟩ ⟨.F s⟩ = false ∧ Number.beq ⟨.F s⟩ ⟨.U n⟩ = false)
    ∧ (∀ (i : Int) (s : F64m),
      Number.beq ⟨.I i⟩ ⟨.F s⟩ = false ∧ Number.beq ⟨.F s⟩ ⟨.I i⟩ = false)
    ∧ Number.beq ⟨.U 23⟩ ⟨.I 23⟩ = false
    ∧ (∀ s : F64m, Number.beq ⟨.U 23⟩ ⟨.F s⟩ = false)
    ∧ Number.fromF64 (.fin ⟨23, 0⟩) = Number.fromU64 23
    ∧ Number.beq (Number.fromF64 (.fin ⟨23, 0⟩)) (Number.fromU64 23) = true := by
  refine ⟨?_, ?_, ?_, fun _ _ => rfl, fun _ _ => ⟨rfl, rfl⟩, fun _ _ => ⟨rfl, rfl⟩,
    fun _ _ => ⟨rfl, rfl⟩, by decide, fun _ => rfl, by decide, by decide⟩
  · rintro ⟨a⟩ ⟨b⟩ h
    cases a <;> cases b <;> simp_all [Number.beq, Num.beq, Num.kind]
  · intro n m
    by_cases h : n = m <;> simp [Number.beq, Num.beq, h]
  · intro i j
    by_cases h : i = j <;> simp [Number.beq, Num.beq, h]

/-- Witness for C5 at two concrete same-kind inputs. -/
theorem number_eq_kind_strict_witness :
    (Number.mk (.U 5)).n.kind = (Number.mk (.U 5)).n.kind :=
  number_eq_kind_strict.1 ⟨.U 5⟩ ⟨.U 5⟩ (by decide)

/-- C7: Lifting an optional erases the wrapper - an empty optional lifts
to the `NoValue` variant and a present optional lifts to exactly the
lifted inner value, for every liftable element type. -/
theorem option_lift_erasure :
    ∀ {T : Type} (lift : T → Value),
      liftOption lift none = Value.noValue ∧ ∀ x, liftOption lift (some x) = lift x :=
  fun _ => ⟨rfl, fun _ => rfl⟩

/-- C8: Two callable wrappers are equal exactly when they reference the
same underlying function pointer; wrappers of distinct functions are
unequal whatever their behavior, and `Value` equality on the callable
variant is exactly this identity comparison. -/
theorem function_identity_eq :
    (∀ a b : Function, Function.beq a b = true ↔ a.fid = b.fid)
    ∧ (∀ a b : Function, valueEq (.function a) (.function b) = Function.beq a b)
    ∧ Function.beq ⟨7⟩ ⟨7⟩ = true
    ∧ Function.beq ⟨7⟩ ⟨8⟩ = false := by
  refine ⟨?_, ?_, by decide, by decide⟩
  · intro a b
    simp [Function.beq]
  · intro a b
    simp [valueEq]

/-- C9: Construction from the floating `-0.0` collapses on the sign bit
to a signed-kind zero, while `+0.0` gives an unsigned-kind zero; the two
results are unequal and the former orders strictly below the latter,
although the inputs themselves are numerically equal floats. -/
theorem negzero_signed_zero :
    Number.fromF64 .negZero = ⟨.I 0⟩
    ∧ Number.fromF64 (.fin ⟨0, 0⟩) = ⟨.U 0⟩
    ∧ Number.beq (Number.fromF64 .negZero) (Number.fromF64 (.fin ⟨0, 0⟩)) = false
    ∧ Number.cmpOpt (Number.fromF64 .negZero) (Number.fromF64 (.fin ⟨0, 0⟩)) = some .lt
    ∧ F64m.feq .negZero (.fin ⟨0, 0⟩) = true := by
  refine ⟨by decide, by decide, by decide, by decide, by decide⟩

/-- C10: A `Number` built from a floating NaN stays in the floating kind,
is unequal to itself, and admits no ordering against any `Number` on
either side; a `Value` holding it is likewise unequal to itself. -/
theorem nan_not_reflexive :
    Number.fromF64 .nan = ⟨.F .nan⟩
    ∧ Number.beq ⟨.F .nan⟩ ⟨.F .nan⟩ = false
    ∧ (∀ m : Number, Number.cmpOpt ⟨.F .nan⟩ m = none ∧ Number.cmpOpt m ⟨.F .nan⟩ = none)
    ∧ valueEq (.number ⟨.F .nan⟩) (.number ⟨.F .nan⟩) = false := by
  refine ⟨by decide, by decide, ?_, ?_⟩
  · rintro ⟨m⟩
    cases m with
    | U n => exact ⟨rfl, rfl⟩
    | I i => exact ⟨rfl, rfl⟩
    | F f =>
        refine ⟨rfl, ?_⟩
        simp [Number.cmpOpt, Num.cmpOpt, F64m.cmpOpt, F64m.toXR]
  · simp [valueEq, Number.beq, Num.beq, F64m.feq, F64m.cmpOpt, F64m.toXR]

end Gtmpl
